import Mathlib

set_option linter.all false

/-!
Shallow embedding of the spin-lock and interrupt-nesting layer of a small
RISC-V kernel (kernel/spinlock.c) together with the machine-mode timer setup
(start.c).  The execution model is sequential: one core runs one operation at
a time, with the lock record, the calling core's interrupt flag and per-core
record passed explicitly.  Each lock operation additionally emits a trace of
the observable events (nesting push/pop, atomic exchanges with the observed
old value, fences, owner writes, the atomic clear of the lock word) in
program order, so that ordering claims can be stated about the trace.
-/

/-- The spinlock record from spinlock.h / spinlock.c: diagnostic `name`,
the lock word `locked` (a machine word, `0` = free), and `cpu`, the core
currently holding the lock (`none` models the null pointer `0`). -/
structure Spinlock where
  name : String
  locked : Nat
  cpu : Option Nat
deriving DecidableEq, Repr

/-- The fields of `struct cpu` used by spinlock.c: `noff`, the depth of
`push_off` nesting (a C `int`), and `intena`, the interrupt-enable flag
saved by the outermost `push_off`. -/
structure CpuState where
  noff : Int
  intena : Bool
deriving DecidableEq, Repr

/-- Observable events emitted by the lock operations, listed in program
order in the traces below. `xchg old` is one `__sync_lock_test_and_set`
on the lock word that observed the previous value `old`; `fence` is
`__sync_synchronize`; `atomicClear` is `__sync_lock_release`. -/
inductive Event where
  | pushOff
  | popOff
  | xchg (old : Nat)
  | fence
  | writeOwner (c : Option Nat)
  | atomicClear
deriving DecidableEq, Repr

/-- Outcome of an operation: normal return, a kernel `panic` with its
message, or `spins`: the busy-wait loop was still spinning when the fuel
bound ran out (the C loop is unbounded). -/
inductive Res where
  | ok
  | panic (msg : String)
  | spins
deriving DecidableEq, Repr

/-- `initlock` from spinlock.c: store the name, clear the lock word, clear
the owner.  It reads none of the old fields and has no failure path. -/
def initlock (_lk : Spinlock) (name : String) : Spinlock :=
  { name := name, locked := 0, cpu := none }

/-- `holding` from spinlock.c: the lock word is set and the recorded owner
is the calling core (`me` models `mycpu()`). -/
def holding (me : Nat) (lk : Spinlock) : Bool :=
  lk.locked != 0 && lk.cpu == some me

/-- `push_off` from spinlock.c: read the current interrupt flag, disable
interrupts, save the old flag in `intena` when the nesting count was zero,
and increment the count.  Returns the new interrupt flag (always `false`)
and the new per-core record. -/
def push_off (intr : Bool) (c : CpuState) : Bool × CpuState :=
  let old := intr
  let c1 := if c.noff = 0 then { c with intena := old } else c
  (false, { c1 with noff := c1.noff + 1 })

/-- `pop_off` from spinlock.c: panic when interrupts are enabled, panic
when the nesting count is below one, otherwise decrement the count and run
`intr_on()` exactly when the count reaches zero with `intena` set.
Returns the outcome, the new interrupt flag and the new per-core record. -/
def pop_off (intr : Bool) (c : CpuState) : Res × Bool × CpuState :=
  if intr then (Res.panic "pop_off - interruptible", intr, c)
  else if c.noff < 1 then (Res.panic "pop_off", intr, c)
  else
    let c1 := { c with noff := c.noff - 1 }
    if c1.noff == 0 && c1.intena then (Res.ok, true, c1)
    else (Res.ok, intr, c1)

/-- The spin loop of `acquire`: repeated `__sync_lock_test_and_set` of `1`
into the lock word, recording each observed old value, until the old value
is `0`.  `fuel` bounds the number of attempts so the function is total; the
loop in C is unbounded.  Returns whether the loop won, the lock state, and
the exchange events in order. -/
def spinLoop (fuel : Nat) (lk : Spinlock) : Bool × Spinlock × List Event :=
  match fuel with
  | 0 => (false, lk, [])
  | Nat.succ f =>
    let old := lk.locked
    let lk1 := { lk with locked := 1 }
    if old != 0 then
      let r := spinLoop f lk1
      (r.1, r.2.1, Event.xchg old :: r.2.2)
    else
      (true, lk1, [Event.xchg old])

/-- Result of `acquire`/`release`: the outcome, the interrupt flag, the
per-core record and the lock state at the point the operation stopped, and
the trace of events the operation performed. -/
structure Exec where
  res : Res
  intr : Bool
  cpu : CpuState
  lk : Spinlock
  trace : List Event
deriving DecidableEq, Repr

/-- `acquire` from spinlock.c: `push_off` first, panic if this core already
holds the lock, spin with atomic exchanges until the observed old value is
free, then `__sync_synchronize`, then record this core as owner. -/
def acquire (fuel : Nat) (me : Nat) (intr : Bool) (c : CpuState) (lk : Spinlock) : Exec :=
  let p := push_off intr c
  if holding me lk then
    { res := Res.panic "acquire", intr := p.1, cpu := p.2, lk := lk,
      trace := [Event.pushOff] }
  else
    let s := spinLoop fuel lk
    if s.1 then
      let lk2 := { s.2.1 with cpu := some me }
      { res := Res.ok, intr := p.1, cpu := p.2, lk := lk2,
        trace := Event.pushOff :: s.2.2 ++ [Event.fence, Event.writeOwner (some me)] }
    else
      { res := Res.spins, intr := p.1, cpu := p.2, lk := s.2.1,
        trace := Event.pushOff :: s.2.2 }

/-- `release` from spinlock.c: panic unless the calling core holds the lock;
otherwise clear the owner, `__sync_synchronize`, atomically clear the lock
word with `__sync_lock_release`, and finally `pop_off`. -/
def release (me : Nat) (intr : Bool) (c : CpuState) (lk : Spinlock) : Exec :=
  if !(holding me lk) then
    { res := Res.panic "release", intr := intr, cpu := c, lk := lk, trace := [] }
  else
    let lk1 := { lk with cpu := none }
    let lk2 := { lk1 with locked := 0 }
    let p := pop_off intr c
    { res := p.1, intr := p.2.1, cpu := p.2.2, lk := lk2,
      trace := [Event.writeOwner none, Event.fence, Event.atomicClear, Event.popOff] }

/-- One call of the Interrupt Nesting Controller: a `push_off` or a
`pop_off`. -/
inductive IOp where
  | push
  | pop
deriving DecidableEq, Repr

/-- Run a sequence of `push_off`/`pop_off` calls on the calling core's
state, stopping at the first panic. -/
def runOps : List IOp → Bool → CpuState → Res × Bool × CpuState
  | [], intr, c => (Res.ok, intr, c)
  | IOp.push :: rest, intr, c =>
    let p := push_off intr c
    runOps rest p.1 p.2
  | IOp.pop :: rest, intr, c =>
    let q := pop_off intr c
    if q.1 = Res.ok then runOps rest q.2.1 q.2.2 else q

/-- BalancedOps (well-nested) sequences of `push_off`/`pop_off` calls: the
empty sequence, a balanced sequence wrapped in a matching push/pop pair,
and the concatenation of two balanced sequences. -/
inductive BalancedOps : List IOp → Prop where
  | nil : BalancedOps []
  | wrap {w : List IOp} : BalancedOps w → BalancedOps (IOp.push :: w ++ [IOp.pop])
  | app {u v : List IOp} : BalancedOps u → BalancedOps v → BalancedOps (u ++ v)

/-- CLINT memory-mapped address of the machine-mode timer comparator
register of hart `hartid` (`CLINT_MTIMECMP(hartid)` from memlayout.h,
which is not under src/; the standard CLINT layout used by this kernel). -/
def CLINT_MTIMECMP (hartid : Nat) : Nat := 0x2000000 + 0x4000 + 8 * hartid

/-- CLINT memory-mapped address of the current machine timer count
(`CLINT_MTIME` from memlayout.h, which is not under src/). -/
def CLINT_MTIME : Nat := 0x2000000 + 0xBFF8

/-- Modelled from the spec: the machine-mode interrupt-enable bit of the
`mstatus` register (`MSTATUS_MIE` from riscv.h, which is not under src/). -/
def MSTATUS_MIE : Nat := 8

/-- Modelled from the spec: the machine-mode timer-interrupt-enable bit of
the `mie` register (`MIE_MTIE` from riscv.h, which is not under src/). -/
def MIE_MTIE : Nat := 128

/-- The machine state touched by `timerinit` in start.c: `mem` is the
memory-mapped CLINT region (64-bit words addressed by byte address),
`scratch` is the `timer_scratch` array (hart index, then slot index 0..4),
and `mscratch`, `mtvec`, `mstatus`, `mie` are the privileged registers
written during setup. -/
structure TimerState where
  mem : Nat → Nat
  scratch : Nat → Nat → Nat
  mscratch : Nat
  mtvec : Nat
  mstatus : Nat
  mie : Nat

/-- `timerinit` from start.c, run by hart `hartid`: program this hart's
CLINT comparator to the current timer count plus the interval (a 64-bit
store, hence the reduction mod `2 ^ 64`), store the comparator's address in
scratch slot 3 and the interval in slot 4, publish the scratch area's
address in `mscratch`, install the trap vector, and enable machine-mode
interrupts and the timer interrupt.  `timervec` is the address of the
external trap-vector symbol and `scratchbase` the load address of
`timer_scratch` (both linker-assigned, so passed as parameters). -/
def timerinit (timervec : Nat) (scratchbase : Nat) (hartid : Nat)
    (s : TimerState) : TimerState :=
  let interval : Nat := 1000000
  let cmpAddr := CLINT_MTIMECMP hartid
  let mem1 := fun a =>
    if a = cmpAddr then (s.mem CLINT_MTIME + interval) % 2 ^ 64 else s.mem a
  let scratch1 := fun h i =>
    if h = hartid ∧ i = 3 then cmpAddr
    else if h = hartid ∧ i = 4 then interval
    else s.scratch h i
  { mem := mem1, scratch := scratch1,
    mscratch := scratchbase + 8 * (5 * hartid),
    mtvec := timervec,
    mstatus := s.mstatus ||| MSTATUS_MIE,
    mie := s.mie ||| MIE_MTIE }

/-- The nested-lock test of the spec (Scenario C): starting from per-core
record `c` with interrupt flag `intr`, acquire L1, then acquire L2 inside
L1's critical section, then release L2 and then L1, threading the
interrupt flag, per-core record and lock states; returns the four
execution records in order. -/
def nestedLocks (me : Nat) (intr : Bool) (c : CpuState) :
    Exec × Exec × Exec × Exec :=
  let e1 := acquire 1 me intr c ⟨"L1", 0, none⟩
  let e2 := acquire 1 me e1.intr e1.cpu ⟨"L2", 0, none⟩
  let e3 := release me e2.intr e2.cpu e2.lk
  let e4 := release me e3.intr e3.cpu e1.lk
  (e1, e2, e3, e4)

/-! ### Helper lemmas -/

theorem cpuState_eta (c : CpuState) : CpuState.mk c.noff c.intena = c := rfl

theorem runOps_append (u v : List IOp) (intr : Bool) (c : CpuState) :
    runOps (u ++ v) intr c =
      (if (runOps u intr c).1 = Res.ok
       then runOps v (runOps u intr c).2.1 (runOps u intr c).2.2
       else runOps u intr c) := by
  induction u generalizing intr c with
  | nil => simp [runOps]
  | cons op rest ih =>
    cases op with
    | push => simp [runOps, ih]
    | pop =>
      by_cases hq : (pop_off intr c).1 = Res.ok
      · simp [runOps, hq, ih]
      · simp [runOps, hq]

theorem runOps_nested {w : List IOp} (hb : BalancedOps w) :
    ∀ c : CpuState, 1 ≤ c.noff → runOps w false c = (Res.ok, false, c) := by
  induction hb with
  | nil => intro c h; rfl
  | @wrap w0 hw ih =>
    intro c h
    have hne : ¬ c.noff = 0 := by omega
    have hstep : runOps (IOp.push :: w0 ++ [IOp.pop]) false c =
        runOps (w0 ++ [IOp.pop]) false { c with noff := c.noff + 1 } := by
      simp [runOps, push_off, hne]
    rw [hstep, runOps_append, ih { c with noff := c.noff + 1 } (by simp; omega)]
    have h1 : ¬ ((c.noff + 1 : Int) < 1) := by omega
    have h2 : ((c.noff + 1 - 1 : Int) == 0) = false := by
      simp only [beq_eq_false_iff_ne, ne_eq]
      omega
    have h3 : ({ c with noff := c.noff + 1 - 1 } : CpuState) = c := by
      have hn : (c.noff + 1 - 1 : Int) = c.noff := by omega
      rw [hn]
    simp [runOps, pop_off, h1, h2, h3, hne, cpuState_eta]
  | app hu hv ihu ihv =>
    intro c h
    rw [runOps_append, ihu c h]
    simpa using ihv c h

theorem balanced_noop_aux {w : List IOp} (hb : BalancedOps w) :
    ∀ (intr : Bool) (c : CpuState), c.noff = 0 →
      (runOps w intr c).1 = Res.ok ∧ (runOps w intr c).2.1 = intr ∧
      (runOps w intr c).2.2.noff = 0 := by
  induction hb with
  | nil => intro intr c h; simpa [runOps] using h
  | @wrap w0 hw ih =>
    intro intr c h
    have hstep : runOps (IOp.push :: w0 ++ [IOp.pop]) intr c =
        runOps (w0 ++ [IOp.pop]) false { noff := 1, intena := intr } := by
      simp [runOps, push_off, h]
    rw [hstep, runOps_append,
        runOps_nested hw { noff := 1, intena := intr } (by simp)]
    cases intr <;> simp [runOps, pop_off]
  | app hu hv ihu ihv =>
    intro intr c h
    obtain ⟨h1, h2, h3⟩ := ihu intr c h
    rw [runOps_append, if_pos h1, h2]
    exact ihv intr (runOps _ intr c).2.2 h3

/-! ### C10: initlock is unconditional -/

/-- C10: `initlock` checks no precondition and has no failure path: called
on a lock in any state, including a lock whose word is set with a recorded
owner, it stores the name, sets the lock word to `0` and clears the owner,
so afterwards no core holds the lock. -/
theorem initlock_unconditional (lk : Spinlock) (nm : String) :
    (initlock lk nm).name = nm ∧ (initlock lk nm).locked = 0 ∧
    (initlock lk nm).cpu = none ∧
    ∀ me : Nat, holding me (initlock lk nm) = false := by
  simp [initlock, holding]

/-! ### C4: re-entrant acquire panics before spinning -/

/-- C4: `acquire` on a lock already held by the calling core panics with
the acquire diagnostic before any spinning: the trace holds only the
nesting push and no exchange on the lock word. -/
theorem acquire_reentrant_panics (fuel me : Nat) (intr : Bool) (c : CpuState)
    (lk : Spinlock) (hh : holding me lk = true) :
    (acquire fuel me intr c lk).res = Res.panic "acquire" ∧
    (acquire fuel me intr c lk).trace = [Event.pushOff] := by
  simp [acquire, hh]

theorem acquire_reentrant_panics_witness :
    (acquire 1 0 false ⟨0, false⟩ ⟨"L", 1, some 0⟩).res = Res.panic "acquire" ∧
    (acquire 1 0 false ⟨0, false⟩ ⟨"L", 1, some 0⟩).trace = [Event.pushOff] :=
  acquire_reentrant_panics 1 0 false ⟨0, false⟩ ⟨"L", 1, some 0⟩ (by decide)

/-! ### C5: release without holding panics and mutates nothing -/

/-- C5: `release` on a lock the calling core does not hold — in particular
a never-acquired lock — panics with the release diagnostic, performs no
event, and leaves the lock record (lock word and owner included)
unchanged. -/
theorem release_not_holding_panics (me : Nat) (intr : Bool) (c : CpuState)
    (lk : Spinlock) (hh : holding me lk = false) :
    (release me intr c lk).res = Res.panic "release" ∧
    (release me intr c lk).lk = lk ∧
    (release me intr c lk).trace = [] := by
  simp [release, hh]

theorem release_not_holding_panics_witness :
    (release 0 false ⟨0, false⟩ (initlock ⟨"x", 1, some 2⟩ "L")).res = Res.panic "release" ∧
    (release 0 false ⟨0, false⟩ (initlock ⟨"x", 1, some 2⟩ "L")).lk =
      initlock ⟨"x", 1, some 2⟩ "L" ∧
    (release 0 false ⟨0, false⟩ (initlock ⟨"x", 1, some 2⟩ "L")).trace = [] :=
  release_not_holding_panics 0 false ⟨0, false⟩ (initlock ⟨"x", 1, some 2⟩ "L")
    (by decide)

/-! ### C6: pop_off -/

/-- C6: `pop_off` panics when interrupts are enabled on the calling core,
panics when the nesting counter is below one, and otherwise decrements the
counter and re-enables interrupts exactly when the counter reaches zero
and the flag saved by the outermost `push_off` was set. -/
theorem pop_off_cases (intr : Bool) (c : CpuState) :
    pop_off intr c =
      (if intr then (Res.panic "pop_off - interruptible", intr, c)
       else if c.noff < 1 then (Res.panic "pop_off", intr, c)
       else (Res.ok, (c.noff == 1) && c.intena,
             { c with noff := c.noff - 1 })) := by
  unfold pop_off
  split_ifs with h1 h2
  · rfl
  · rfl
  · have hi : intr = false := by simpa using h1
    have he : ((c.noff - 1 : Int) == 0) = (c.noff == 1) := by
      by_cases hc : c.noff = 1
      · simp [hc]
      · have hx : ((c.noff - 1 : Int) == 0) = false := by
          simp only [beq_eq_false_iff_ne, ne_eq]
          omega
        have hy : ((c.noff : Int) == 1) = false := by
          simp only [beq_eq_false_iff_ne, ne_eq]
          exact hc
        rw [hx, hy]
    simp only [hi, he]
    cases hb : ((c.noff == 1) && c.intena) <;> simp [hb]

/-! ### C1: ordering inside a successful acquire -/

/-- C1: a completing `acquire` performs, in this order: the nesting push
(before any access to the lock word), the atomic exchange observing the
lock word free, the full fence, and only then the owner write; the calling
core's nesting counter is incremented and the core is recorded as owner
with the lock word held. -/
theorem acquire_success_order (fuel me : Nat) (intr : Bool) (c : CpuState)
    (lk : Spinlock) (hf : 1 ≤ fuel) (hl : lk.locked = 0) :
    (acquire fuel me intr c lk).res = Res.ok ∧
    (acquire fuel me intr c lk).trace =
      [Event.pushOff, Event.xchg 0, Event.fence, Event.writeOwner (some me)] ∧
    (acquire fuel me intr c lk).cpu.noff = c.noff + 1 ∧
    (acquire fuel me intr c lk).lk.locked = 1 ∧
    (acquire fuel me intr c lk).lk.cpu = some me := by
  obtain ⟨f, rfl⟩ : ∃ f, fuel = f + 1 := ⟨fuel - 1, by omega⟩
  have hh : holding me lk = false := by simp [holding, hl]
  by_cases hn : c.noff = 0 <;>
    simp [acquire, spinLoop, push_off, hh, hl, hn]

theorem acquire_success_order_witness :
    (acquire 1 0 true ⟨0, false⟩ ⟨"L", 0, none⟩).res = Res.ok ∧
    (acquire 1 0 true ⟨0, false⟩ ⟨"L", 0, none⟩).trace =
      [Event.pushOff, Event.xchg 0, Event.fence, Event.writeOwner (some 0)] ∧
    (acquire 1 0 true ⟨0, false⟩ ⟨"L", 0, none⟩).cpu.noff =
      (⟨0, false⟩ : CpuState).noff + 1 ∧
    (acquire 1 0 true ⟨0, false⟩ ⟨"L", 0, none⟩).lk.locked = 1 ∧
    (acquire 1 0 true ⟨0, false⟩ ⟨"L", 0, none⟩).lk.cpu = some 0 :=
  acquire_success_order 1 0 true ⟨0, false⟩ ⟨"L", 0, none⟩ (by decide) rfl

/-! ### C2: ordering inside release -/

/-- C2: `release` by the core that holds the lock (with interrupts off and
a positive nesting count, as after the matching `acquire`) performs, in
this order: the owner clear, the full fence, the atomic clear of the lock
word, and the nesting pop as its last step; the counter is decremented. -/
theorem release_order (me : Nat) (intr : Bool) (c : CpuState) (lk : Spinlock)
    (hh : holding me lk = true) (hi : intr = false) (hn : 1 ≤ c.noff) :
    (release me intr c lk).res = Res.ok ∧
    (release me intr c lk).trace =
      [Event.writeOwner none, Event.fence, Event.atomicClear, Event.popOff] ∧
    (release me intr c lk).lk.cpu = none ∧
    (release me intr c lk).lk.locked = 0 ∧
    (release me intr c lk).cpu.noff = c.noff - 1 := by
  subst hi
  have h1 : ¬ ((c.noff : Int) < 1) := by omega
  simp only [release, hh, pop_off, h1]
  cases hb : ((c.noff - 1 == 0) && c.intena) <;> simp [hb]

theorem release_order_witness :
    (release 0 false ⟨1, true⟩ ⟨"L", 1, some 0⟩).res = Res.ok ∧
    (release 0 false ⟨1, true⟩ ⟨"L", 1, some 0⟩).trace =
      [Event.writeOwner none, Event.fence, Event.atomicClear, Event.popOff] ∧
    (release 0 false ⟨1, true⟩ ⟨"L", 1, some 0⟩).lk.cpu = none ∧
    (release 0 false ⟨1, true⟩ ⟨"L", 1, some 0⟩).lk.locked = 0 ∧
    (release 0 false ⟨1, true⟩ ⟨"L", 1, some 0⟩).cpu.noff =
      (⟨1, true⟩ : CpuState).noff - 1 :=
  release_order 0 false ⟨1, true⟩ ⟨"L", 1, some 0⟩ (by decide) rfl (by decide)

/-! ### C3: holding characterization and lifecycle -/

/-- C3: `holding` returns true iff the lock word is set and the recorded
owner equals the calling core; moreover a successful `acquire` makes
`holding` true for the acquiring core, and it stays true until the
matching `release`, after which it is false. -/
theorem holding_iff_lifecycle (me fuel : Nat) (intr intr2 : Bool)
    (c c2 : CpuState) (lk lk2 : Spinlock) (hf : 1 ≤ fuel) (hl : lk.locked = 0) :
    (holding me lk2 = true ↔ (lk2.locked ≠ 0 ∧ lk2.cpu = some me)) ∧
    holding me (acquire fuel me intr c lk).lk = true ∧
    holding me (release me intr2 c2 (acquire fuel me intr c lk).lk).lk = false := by
  obtain ⟨f, rfl⟩ : ∃ f, fuel = f + 1 := ⟨fuel - 1, by omega⟩
  have hh : holding me lk = false := by simp [holding, hl]
  have hacq : (acquire (f + 1) me intr c lk).lk =
      { lk with locked := 1, cpu := some me } := by
    simp [acquire, spinLoop, push_off, hh, hl]
  refine ⟨by simp [holding], ?_, ?_⟩
  · rw [hacq]
    simp [holding]
  · rw [hacq]
    have hold2 : holding me { lk with locked := 1, cpu := some me } = true := by
      simp [holding]
    simp [release, hold2, holding]

theorem holding_iff_lifecycle_witness :
    ((holding 0 (⟨"M", 1, some 0⟩ : Spinlock) = true ↔
      ((⟨"M", 1, some 0⟩ : Spinlock).locked ≠ 0 ∧
       (⟨"M", 1, some 0⟩ : Spinlock).cpu = some 0)) ∧
     holding 0 (acquire 1 0 false ⟨0, false⟩ ⟨"L", 0, none⟩).lk = true ∧
     holding 0 (release 0 false ⟨1, false⟩
       (acquire 1 0 false ⟨0, false⟩ ⟨"L", 0, none⟩).lk).lk = false) :=
  holding_iff_lifecycle 0 1 false false ⟨0, false⟩ ⟨1, false⟩ ⟨"L", 0, none⟩
    ⟨"M", 1, some 0⟩ (by decide) rfl

/-! ### C7: balanced push_off/pop_off sequences -/

/-- C7: any balanced sequence of `push_off`/`pop_off` calls on a core whose
nesting counter starts at zero completes without panic, leaves the ambient
interrupt-enable flag exactly as it was before the outermost `push_off`
(in particular interrupts stay disabled if they were disabled before), and
returns the counter to zero, for any nesting depth. -/
theorem balanced_restores_intr (w : List IOp) (intr : Bool) (c : CpuState)
    (hb : BalancedOps w) (h0 : c.noff = 0) :
    (runOps w intr c).1 = Res.ok ∧ (runOps w intr c).2.1 = intr ∧
    (runOps w intr c).2.2.noff = 0 :=
  balanced_noop_aux hb intr c h0

theorem balanced_restores_intr_witness :
    (runOps [IOp.push, IOp.push, IOp.pop, IOp.pop] true ⟨0, false⟩).1 = Res.ok ∧
    (runOps [IOp.push, IOp.push, IOp.pop, IOp.pop] true ⟨0, false⟩).2.1 = true ∧
    (runOps [IOp.push, IOp.push, IOp.pop, IOp.pop] true ⟨0, false⟩).2.2.noff = 0 :=
  balanced_restores_intr [IOp.push, IOp.push, IOp.pop, IOp.pop] true ⟨0, false⟩
    (BalancedOps.wrap (BalancedOps.wrap BalancedOps.nil)) rfl

/-! ### C8: the nested-lock scenario -/

/-- C8 as stated fails on the code: between the two acquires of the
nested-lock scenario — after `acquire` of L1 and before `acquire` of L2 —
the calling core's interrupt nesting counter reads 1, not 2 (it reads 2
only once the second `acquire` has run). -/
theorem nested_between_acquires_ne_two :
    (nestedLocks 0 false ⟨0, false⟩).1.res = Res.ok ∧
    (nestedLocks 0 false ⟨0, false⟩).1.cpu.noff = 1 ∧
    ¬ ((nestedLocks 0 false ⟨0, false⟩).1.cpu.noff = 2) := by
  decide

/-- C8 amended: in the nested-lock scenario with the counter initially
zero, every step completes, the counter reads 1 between the two acquires,
2 after the second acquire (while both locks are held), 1 after the
release of L2, and 0 after both releases. -/
theorem nested_locks_noff (me : Nat) (intr : Bool) (c : CpuState)
    (h0 : c.noff = 0) :
    (nestedLocks me intr c).1.res = Res.ok ∧
    (nestedLocks me intr c).1.cpu.noff = 1 ∧
    (nestedLocks me intr c).2.1.res = Res.ok ∧
    (nestedLocks me intr c).2.1.cpu.noff = 2 ∧
    (nestedLocks me intr c).2.2.1.res = Res.ok ∧
    (nestedLocks me intr c).2.2.1.cpu.noff = 1 ∧
    (nestedLocks me intr c).2.2.2.res = Res.ok ∧
    (nestedLocks me intr c).2.2.2.cpu.noff = 0 := by
  obtain ⟨n, b⟩ := c
  have hn : n = 0 := h0
  subst hn
  cases intr <;>
    simp [nestedLocks, acquire, release, holding, push_off, pop_off, spinLoop]

theorem nested_locks_noff_witness :
    (nestedLocks 0 true ⟨0, false⟩).1.res = Res.ok ∧
    (nestedLocks 0 true ⟨0, false⟩).1.cpu.noff = 1 ∧
    (nestedLocks 0 true ⟨0, false⟩).2.1.res = Res.ok ∧
    (nestedLocks 0 true ⟨0, false⟩).2.1.cpu.noff = 2 ∧
    (nestedLocks 0 true ⟨0, false⟩).2.2.1.res = Res.ok ∧
    (nestedLocks 0 true ⟨0, false⟩).2.2.1.cpu.noff = 1 ∧
    (nestedLocks 0 true ⟨0, false⟩).2.2.2.res = Res.ok ∧
    (nestedLocks 0 true ⟨0, false⟩).2.2.2.cpu.noff = 0 :=
  nested_locks_noff 0 true ⟨0, false⟩ rfl

/-! ### C9: timer setup -/

/-- C9: immediately after `timerinit` runs on a hart, that hart's CLINT
comparator register holds the current timer count plus the interval
1000000 (the 64-bit store does not wrap under the stated bound), the
scratch area's fourth slot (index 3) holds the address of that hart's
comparator register, and the fifth slot (index 4) holds the interval. -/
theorem timerinit_comparator_scratch (tv sb hartid : Nat) (s : TimerState)
    (h : s.mem CLINT_MTIME + 1000000 < 2 ^ 64) :
    (timerinit tv sb hartid s).mem (CLINT_MTIMECMP hartid) =
      s.mem CLINT_MTIME + 1000000 ∧
    (timerinit tv sb hartid s).scratch hartid 3 = CLINT_MTIMECMP hartid ∧
    (timerinit tv sb hartid s).scratch hartid 4 = 1000000 := by
  refine ⟨?_, by simp [timerinit], by simp [timerinit]⟩
  simpa [timerinit] using Nat.mod_eq_of_lt h

theorem timerinit_comparator_scratch_witness :
    (timerinit 0 0 0 ⟨fun _ => 0, fun _ _ => 0, 0, 0, 0, 0⟩).mem (CLINT_MTIMECMP 0) =
      (⟨fun _ => 0, fun _ _ => 0, 0, 0, 0, 0⟩ : TimerState).mem CLINT_MTIME + 1000000 ∧
    (timerinit 0 0 0 ⟨fun _ => 0, fun _ _ => 0, 0, 0, 0, 0⟩).scratch 0 3 =
      CLINT_MTIMECMP 0 ∧
    (timerinit 0 0 0 ⟨fun _ => 0, fun _ _ => 0, 0, 0, 0, 0⟩).scratch 0 4 = 1000000 :=
  timerinit_comparator_scratch 0 0 0 ⟨fun _ => 0, fun _ _ => 0, 0, 0, 0, 0⟩
    (by norm_num)
